import Mathlib

/-!
# Verification of the rnote selector pen state machine

Shallow embedding of `src/crates/rnote-engine/src/pens/selector/penevents.rs`.

Modelling conventions:
* Coordinates and scalars are rationals (`ℚ`); the resize scale computation,
  whose claim is about IEEE non-finite handling, is additionally embedded over
  an explicit `F64` type (finite rational / +inf / -inf / NaN) with exact
  arithmetic on finite values.
* The external collaborators (stroke store, camera, document) are modelled as
  oracles collected in an `Env` record: query functions return arbitrary but
  fixed answers, and commands issued to them are logged in an explicit `Cmd`
  list so that theorems can state which side effects an event produces.
* Helper routines of the selector that live outside the provided excerpt
  (`selector/mod.rs`, `snap.rs`, `rnote-compose`) are modelled from the spec;
  each such definition carries a doc comment starting with
  `Modelled from the spec:`.
-/

/-- Rational maximum, written out so that kernel reduction (`decide`) works
on concrete values. -/
def qmax (a b : ℚ) : ℚ := if a ≤ b then b else a

/-- Rational minimum, written out so that kernel reduction works. -/
def qmin (a b : ℚ) : ℚ := if a ≤ b then a else b

/-- Rational absolute value, written out so that kernel reduction works. -/
def qabs (a : ℚ) : ℚ := if a < 0 then -a else a

/-- 2D vector over ℚ (stands for nalgebra `Vector2<f64>`). -/
structure Vec2 where
  x : ℚ
  y : ℚ
deriving DecidableEq, Repr

instance : Add Vec2 := ⟨fun a b => ⟨a.x + b.x, a.y + b.y⟩⟩
instance : Sub Vec2 := ⟨fun a b => ⟨a.x - b.x, a.y - b.y⟩⟩
instance : Neg Vec2 := ⟨fun a => ⟨-a.x, -a.y⟩⟩

/-- Componentwise scaling of a vector by a scalar (nalgebra `Vector2 * f64`). -/
def Vec2.smul (v : Vec2) (c : ℚ) : Vec2 := ⟨v.x * c, v.y * c⟩

/-- Axis-aligned bounding box (p2d `Aabb`). -/
structure Aabb where
  mins : Vec2
  maxs : Vec2
deriving DecidableEq, Repr

/-- p2d `Aabb::extents`: `maxs - mins`. -/
def Aabb.extents (b : Aabb) : Vec2 := b.maxs - b.mins

/-- p2d `Aabb::center`: midpoint of `mins` and `maxs`. -/
def Aabb.center (b : Aabb) : Vec2 :=
  ⟨(b.mins.x + b.maxs.x) / 2, (b.mins.y + b.maxs.y) / 2⟩

/-- p2d `Aabb::contains_local_point`: closed box membership test. -/
def Aabb.containsPoint (b : Aabb) (p : Vec2) : Bool :=
  decide (b.mins.x ≤ p.x) && decide (p.x ≤ b.maxs.x) &&
  decide (b.mins.y ≤ p.y) && decide (p.y ≤ b.maxs.y)

/-- p2d `Aabb::translate`: shift both corners by an offset. -/
def Aabb.translate (b : Aabb) (off : Vec2) : Aabb :=
  ⟨b.mins + off, b.maxs + off⟩

/-- Embeds `Aabb::scale_non_uniform` (rnote-compose AabbExt): scale both corners
componentwise. -/
def Aabb.scaleNonUniform (b : Aabb) (s : Vec2) : Aabb :=
  ⟨⟨b.mins.x * s.x, b.mins.y * s.y⟩, ⟨b.maxs.x * s.x, b.maxs.y * s.y⟩⟩

/-- p2d `Aabb::new_positive`: box spanned by two points, corners sorted
componentwise. -/
def Aabb.newPositive (a b : Vec2) : Aabb :=
  ⟨⟨qmin a.x b.x, qmin a.y b.y⟩, ⟨qmax a.x b.x, qmax a.y b.y⟩⟩

/-- Stroke store key (slotmap key abstracted as a natural number). -/
abbrev StrokeKey := ℕ

/-- Pen input element (rnote-compose `Element`); only the position is read by
the selector handlers. -/
structure Element where
  pos : Vec2
deriving DecidableEq, Repr

/-- Embeds `rnote_compose::penevent::ModifierKey` (the variants the selector reads). -/
inductive ModifierKey where
  | keyboardShift
  | keyboardCtrl
  | keyboardAlt
deriving DecidableEq, Repr

/-- Embeds `rnote_compose::penevent::KeyboardKey`, restricted to the variants the
selector distinguishes plus a catch-all for the remaining keys. -/
inductive KeyboardKey where
  | unicode (c : Char)
  | backSpace
  | delete
  | escape
  | otherKey (code : ℕ)
deriving DecidableEq, Repr

/-- Embeds `rnote_compose::eventresult::EventPropagation`. -/
inductive EventPropagation where
  | proceed
  | stop
deriving DecidableEq, Repr

/-- Embeds `rnote_compose::penevent::PenProgress`. -/
inductive PenProgress where
  | idle
  | inProgress
  | finished
deriving DecidableEq, Repr

/-- Embeds `rnote_compose::eventresult::EventResult<PenProgress>`. -/
structure EventResult where
  handled : Bool
  propagate : EventPropagation
  progress : PenProgress
deriving DecidableEq, Repr

/-- Embeds `WidgetFlags`, restricted to the fields the selector handlers set or the
claims mention; all other fields are irrelevant to the claims. -/
structure WidgetFlags where
  store_modified : Bool := false
  resize : Bool := false
  deselect_color_setters : Bool := false
deriving DecidableEq, Repr

/-- The `WidgetFlags` `|=` operation: fieldwise or. -/
def WidgetFlags.union (a b : WidgetFlags) : WidgetFlags :=
  ⟨a.store_modified || b.store_modified, a.resize || b.resize,
   a.deselect_color_setters || b.deselect_color_setters⟩

/-- Embeds `SelectorStyle` from the pens config. -/
inductive SelectorStyle where
  | single
  | rectangle
  | polygon
  | intersectingPath
deriving DecidableEq, Repr

/-- Embeds `crate::snap::SnapCorner`. -/
inductive SnapCorner where
  | topLeft
  | topRight
  | bottomLeft
  | bottomRight
deriving DecidableEq, Repr

/-- Embeds `ResizeCorner` from the selector module. -/
inductive ResizeCorner where
  | topLeft
  | topRight
  | bottomLeft
  | bottomRight
deriving DecidableEq, Repr

/-- Embeds `ModifyState`: the nested sub-state of `SelectorState::ModifySelection`. -/
inductive ModifyState where
  | up
  | hover (pos : Vec2)
  | translate (startPos currentPos : Vec2) (snapCorner : SnapCorner)
  | rotate (rotationCenter : Vec2) (startRotationAngle currentRotationAngle : ℚ)
  | resize (fromCorner : ResizeCorner) (startBounds : Aabb) (startPos : Vec2)
deriving DecidableEq, Repr

/-- Holds on the in-progress gesture sub-states. -/
def ModifyState.isGesture : ModifyState → Bool
  | .translate _ _ _ => true
  | .rotate _ _ _ => true
  | .resize _ _ _ => true
  | _ => false

/-- Holds on the resting sub-states `Up` and `Hover`. -/
def ModifyState.isRest : ModifyState → Bool
  | .up => true
  | .hover _ => true
  | _ => false

/-- Embeds `SelectorState`. -/
inductive SelectorState where
  | idle
  | selecting (path : List Element)
  | modifySelection (modifyState : ModifyState) (selection : List StrokeKey)
      (selectionBounds : Aabb)
deriving DecidableEq, Repr

/-- Commands issued by the selector to its external collaborators (store,
camera, document, renderer, history); recorded as an explicit log so theorems
can state which side effects an event triggers. -/
inductive Cmd where
  | setSelectedKeys (keys : List StrokeKey) (selected : Bool)
  | setSelected (key : StrokeKey) (selected : Bool)
  | copyGhostStrokeWidth (keys : List StrokeKey)
  | translateStrokes (keys : List StrokeKey) (offset : Vec2)
  | translateStrokesImages (keys : List StrokeKey) (offset : Vec2)
  | rotateStrokes (keys : List StrokeKey) (angleDelta : ℚ) (center : Vec2)
  | rotateStrokesImages (keys : List StrokeKey) (angleDelta : ℚ) (center : Vec2)
  | scaleStrokesWithPivot (keys : List StrokeKey) (scaleStroke scaleResize : Vec2)
      (pivot : Vec2)
  | scaleStrokesImagesWithPivot (keys : List StrokeKey) (scaleResize : Vec2)
      (pivot : Vec2)
  | updateGeometryForStrokes (keys : List StrokeKey)
  | regenerateRenderingInViewport
  | regenerateRenderingForStrokes (keys : List StrokeKey)
  | duplicateSelection
  | setTrashedKeys (keys : List StrokeKey) (trashed : Bool)
  | record
  | nudgeCamera (pos : Vec2)
  | expandAutoexpand
  | resizeAutoexpand
  | cancelSelection (keys : List StrokeKey)
  | selectAll
deriving DecidableEq, Repr

/-- The engine view: all external collaborators of the selector, modelled as
oracles. Query functions return fixed (per-event) answers; the flag-valued
fields are the `WidgetFlags` the corresponding external call returns. -/
structure Env where
  /-- Source: `pens_config.selector_config.style`. -/
  style : SelectorStyle := .single
  /-- Source: `pens_config.selector_config.resize_lock_aspectratio`. -/
  resizeLockAspect : Bool := false
  /-- Source: `store.selection_keys_as_rendered()`. -/
  selectionKeysAsRendered : List StrokeKey := []
  /-- Source: `store.stroke_hitboxes_contain_coord(viewport, pos)`; topmost stroke
  last, the viewport argument is absorbed into the oracle. -/
  strokeHitboxesContainCoord : Vec2 → List StrokeKey := fun _ => []
  /-- Source: `store.selected(key)`. -/
  selected : StrokeKey → Option Bool := fun _ => none
  /-- Source: `store.bounds_for_strokes(keys)`. -/
  boundsForStrokes : List StrokeKey → Option Aabb := fun _ => none
  /-- Source: `store.strokes_hitboxes_contained_in_path_polygon(path, viewport)`. -/
  containedInPolygon : List Element → List StrokeKey := fun _ => []
  /-- Source: `store.strokes_hitboxes_contained_in_aabb(aabb, viewport)`. -/
  containedInAabb : Aabb → List StrokeKey := fun _ => []
  /-- Source: `store.strokes_hitboxes_intersect_path(path, viewport)`. -/
  intersectPath : List Element → List StrokeKey := fun _ => []
  /-- Source: `store.initial_size_selection`. -/
  initialSizeSelection : Option Vec2 := none
  /-- Source: `store.duplicate_selection()`. -/
  duplicateSelectionResult : List StrokeKey := []
  /-- Source: `document.snap_position(pos)`. -/
  snapPosition : Vec2 → Vec2 := fun p => p
  /-- Source: `camera.total_zoom()`. -/
  totalZoom : ℚ := 1
  /-- Flags returned by `camera.nudge_w_pos(..)`. -/
  nudgeFlags : WidgetFlags := {}
  /-- Flags returned by `document.expand_autoexpand(..)`. -/
  expandFlags : WidgetFlags := {}
  /-- Flags returned by `document.resize_autoexpand(..)`. -/
  resizeAutoexpandFlags : WidgetFlags := {}
  /-- Flags returned by `store.record(now)`. -/
  recordFlags : WidgetFlags := {}
  /-- Flags returned by the external `cancel_selection` routine. -/
  cancelSelectionFlags : WidgetFlags := {}
  /-- Flags produced by the `select_all` routine. -/
  selectAllFlags : WidgetFlags := {}
  /-- Source: `self.bounds_on_doc(..)`: the selector decoration bounds on the
  document, drawing-constant dependent, abstracted as an oracle. -/
  selectorBoundsOnDoc : Option Aabb := none
  /-- Modelled from the spec: `rotate_node_sphere(bounds, camera)
  .contains_local_point(pos)` — the rotation-handle hit zone (a circular zone
  offset from one bounds corner, inverse-zoom-scaled); its geometry lives in
  `selector/mod.rs` outside the excerpt, so the membership test is abstracted
  as an oracle predicate. -/
  rotateNodeContains : Aabb → Vec2 → Bool := fun _ _ => false
  /-- Modelled from the spec: `resize_node_bounds(corner, bounds, camera)
  .contains_local_point(pos)` — the four resize corner hit zones (small
  square regions at bounds corners, inverse-zoom-scaled), abstracted as an
  oracle predicate for the same reason as the rotation handle. -/
  resizeNodeContains : ResizeCorner → Aabb → Vec2 → Bool := fun _ _ _ => false
  /-- Modelled from the spec: `SnapCorner::determine_from_bounds(bounds, pos)`
  — the nearest bounds corner used as snapping reference (`snap.rs` is outside
  the excerpt). -/
  determineSnapCorner : Aabb → Vec2 → SnapCorner := fun _ _ => .topLeft
  /-- Source: `na::Vector2::x().angle_ahead(&vec)`: the angle of a vector against the
  x-axis; atan2-based and hence not rational-representable, abstracted as an
  oracle function. -/
  angleAhead : Vec2 → ℚ := fun _ => 0
  /-- Source: `Selector::TRANSLATE_OFFSET_THRESHOLD` (constant defined outside the
  excerpt; the spec calls it a fixed threshold). -/
  translateOffsetThreshold : ℚ := 1
  /-- Source: `Selector::ROTATE_ANGLE_THRESHOLD` (constant defined outside the
  excerpt; the spec calls it a fixed threshold). -/
  rotateAngleThreshold : ℚ := 1/100

/-- Result of handling one pen event: successor selector state, the returned
`EventResult`, the accumulated `WidgetFlags`, and the log of commands issued
to external collaborators, in issue order. -/
structure Output where
  state : SelectorState
  result : EventResult
  flags : WidgetFlags
  cmds : List Cmd
deriving DecidableEq, Repr

/-! ## IEEE-style scalar model for the resize scale computation

The resize branch's claim is about the handling of non-finite intermediate
values, so its scale formula is embedded over an explicit float model:
a finite rational, positive/negative infinity, or NaN. Arithmetic on finite
values is exact (rounding is not modelled; signed zero collapses to `0`). -/

/-- Float model: finite rational value, infinities, or NaN. -/
inductive F64 where
  | fin (q : ℚ)
  | pinf
  | ninf
  | nan
deriving DecidableEq, Repr

/-- IEEE addition on the float model. -/
def F64.add : F64 → F64 → F64
  | .nan, _ => .nan
  | _, .nan => .nan
  | .pinf, .ninf => .nan
  | .ninf, .pinf => .nan
  | .pinf, _ => .pinf
  | _, .pinf => .pinf
  | .ninf, _ => .ninf
  | _, .ninf => .ninf
  | .fin a, .fin b => .fin (a + b)

/-- IEEE division on the float model (signed zero not modelled: a finite
nonzero value divided by zero takes the sign of the numerator). -/
def F64.div : F64 → F64 → F64
  | .nan, _ => .nan
  | _, .nan => .nan
  | .pinf, .pinf => .nan
  | .pinf, .ninf => .nan
  | .ninf, .pinf => .nan
  | .ninf, .ninf => .nan
  | .pinf, .fin b => if b < 0 then .ninf else .pinf
  | .ninf, .fin b => if b < 0 then .pinf else .ninf
  | .fin _, .pinf => .fin 0
  | .fin _, .ninf => .fin 0
  | .fin a, .fin b =>
      if b = 0 then (if a = 0 then .nan else if 0 < a then .pinf else .ninf)
      else .fin (a / b)

/-- Rust `f64::max` on the float model: a NaN argument is ignored unless both
are NaN. -/
def F64.fmax : F64 → F64 → F64
  | .nan, b => b
  | a, .nan => a
  | .pinf, _ => .pinf
  | _, .pinf => .pinf
  | .ninf, b => b
  | a, .ninf => a
  | .fin a, .fin b => .fin (qmax a b)

/-- Embeds `f64::is_finite` on the float model. -/
def F64.isFinite : F64 → Bool
  | .fin _ => true
  | _ => false

/-- The clamp `map(|x| if !x.is_finite() { 0.0 } else { x })` from the resize
branch. -/
def F64.clampNonFinite : F64 → F64
  | .fin q => .fin q
  | _ => .fin 0

/-- One axis of the `scale_resize` computation (penevents.rs lines 341-354)
over the float model: `max(clamp((max(v + o, 1e-15)) / e), (1e-2) / e)` where
`v` is the start-bounds extent plus nothing, `o` the mirrored offset, `e` the
current selection-bounds extent, `clamp` replaces non-finite values by 0, and
the outer `max` applies the `min_extents` floor computed from `e`. -/
def scaleResizeAxis (v o e : F64) : F64 :=
  F64.fmax
    (F64.clampNonFinite
      (F64.div (F64.fmax (F64.add v o) (.fin (1/1000000000000000))) e))
    (F64.div (.fin (1/100)) e)

/-- One axis of the `scale_resize` computation on plain rationals, as used by
the state-level handler embedding: with all-rational inputs the only
non-finite intermediate is a division by a zero extent, which the clamp maps
to 0; the `min_extents` term `1e-2 / e` uses rational division (so at `e = 0`
it is 0 where IEEE yields +inf — the zero-extent point is covered by the
`F64` model above). -/
def scaleResizeAxisQ (v o e : ℚ) : ℚ :=
  qmax (if e = 0 then 0 else qmax (v + o) (1/1000000000000000) / e) (1/100 / e)

/-- One axis of the `scale_stroke` computation (penevents.rs lines 362-366):
`max((v + o) / init, 1e-5)` with `init` the initial selection size on that
axis. -/
def scaleStrokeAxis (v o init : ℚ) : ℚ :=
  qmax ((v + o) / init) (1/100000)

/-- Embeds the comparison `offset.magnitude() > c` over rationals: the
magnitude `sqrt(x² + y²)` is irrational in general, but its comparison with
`c` is equivalent to comparing `x² + y²` with `c²` when `0 ≤ c`, and is
always true when `c < 0`. -/
def magGt (v : Vec2) (c : ℚ) : Bool :=
  if c < 0 then true else decide (c * c < v.x * v.x + v.y * v.y)

/-- Snap-corner position of a bounds box for a `SnapCorner` (translate branch,
penevents.rs lines 205-214). -/
def snapCornerPos (b : Aabb) : SnapCorner → Vec2
  | .topLeft => b.mins
  | .topRight => ⟨b.maxs.x, b.mins.y⟩
  | .bottomLeft => ⟨b.mins.x, b.maxs.y⟩
  | .bottomRight => b.maxs

/-- Snap-corner position of the start bounds for a `ResizeCorner` (resize
branch, penevents.rs lines 287-298). -/
def resizeSnapCornerPos (b : Aabb) : ResizeCorner → Vec2
  | .topLeft => b.mins
  | .topRight => ⟨b.maxs.x, b.mins.y⟩
  | .bottomLeft => ⟨b.mins.x, b.maxs.y⟩
  | .bottomRight => b.maxs

/-- Pivot of the resize transform: the corner diagonally opposite
`from_corner` (penevents.rs lines 299-310). -/
def resizePivot (b : Aabb) : ResizeCorner → Vec2
  | .topLeft => b.maxs
  | .topRight => ⟨b.mins.x, b.maxs.y⟩
  | .bottomLeft => ⟨b.maxs.x, b.mins.y⟩
  | .bottomRight => b.mins

/-- Mirroring of the raw resize offset per corner so that growing outward is
positive (penevents.rs lines 318-327). -/
def mirrorOffset (off : Vec2) : ResizeCorner → Vec2
  | .topLeft => -off
  | .topRight => ⟨off.x, -off.y⟩
  | .bottomLeft => ⟨-off.x, off.y⟩
  | .bottomRight => off

/-- The snapped candidate offset of the translate branch (penevents.rs lines
216-219): `snap(cornerPos + (pointerPos - currentPos)) - cornerPos`. -/
def translateOffset (env : Env) (b : Aabb) (sc : SnapCorner) (currentPos pos : Vec2) :
    Vec2 :=
  env.snapPosition (snapCornerPos b sc + (pos - currentPos)) - snapCornerPos b sc

/-- Modelled from the spec: `Selector::add_to_select_path(style, path,
element)` (defined in `selector/mod.rs`, outside the excerpt) — appends the
point to the path, decimated per style: polygon and intersecting-path
accumulate all points, rectangle keeps only first and last, single keeps the
last point. -/
def addToSelectPath (style : SelectorStyle) (path : List Element) (el : Element) :
    List Element :=
  match style with
  | .polygon => path ++ [el]
  | .intersectingPath => path ++ [el]
  | .rectangle =>
      match path with
      | [] => [el]
      | first :: _ => [first, el]
  | .single => [el]

/-- The selection-finalization dispatch of the pointer-up handler in the
`Selecting` state (penevents.rs lines 453-502). -/
def finalizeSelection (env : Env) (path : List Element) : List StrokeKey :=
  match env.style with
  | .polygon =>
      if path.length ≥ 3 then env.containedInPolygon path else []
  | .rectangle =>
      match path.head?, path.getLast? with
      | some first, some last =>
          env.containedInAabb (Aabb.newPositive first.pos last.pos)
      | _, _ => []
  | .single =>
      match path.getLast? with
      | some last =>
          match (env.strokeHitboxesContainCoord last.pos).getLast? with
          | some key => [key]
          | none => []
      | none => []
  | .intersectingPath =>
      if path.length ≥ 3 then env.intersectPath path else []

/-- The bounds check shared by the tails of pointer-up and proximity in
`ModifySelection` (penevents.rs lines 557-564 and 599-606): `Hover(pos)` when
the selector's on-doc bounds contain the pointer, else `Up`. -/
def hoverOrUp (env : Env) (pos : Vec2) : ModifyState :=
  match env.selectorBoundsOnDoc with
  | some b => if b.containsPoint pos then .hover pos else .up
  | none => .up

/-- Sets `store_modified` on a flag set (the `widget_flags.store_modified =
true` statement closing the `ModifySelection` branch of pointer-down). -/
def setStoreModified (f : WidgetFlags) : WidgetFlags :=
  { f with store_modified := true }

/-- Pointer-down handler (`handle_pen_event_down`, penevents.rs lines 16-432).
Returns `none` exactly where the source panics: the resize branch unwraps
`store.initial_size_selection`. -/
def handleDown (env : Env) (s : SelectorState) (el : Element)
    (mods : List ModifierKey) : Option Output :=
  match s with
  | .idle =>
      let ks := env.selectionKeysAsRendered
      if ks.isEmpty then
        some ⟨.selecting [el], ⟨true, .stop, .inProgress⟩, {}, []⟩
      else
        some ⟨.selecting [el], ⟨true, .stop, .inProgress⟩,
          { store_modified := true }, [.setSelectedKeys ks false]⟩
  | .selecting path =>
      some ⟨.selecting (addToSelectPath env.style path el),
        ⟨true, .stop, .inProgress⟩,
        ({} : WidgetFlags).union env.nudgeFlags |>.union env.expandFlags,
        [.nudgeCamera el.pos, .expandAutoexpand, .regenerateRenderingInViewport]⟩
  | .modifySelection ms sel bounds =>
      match ms with
      | .up | .hover _ =>
          let keyToAdd := (env.strokeHitboxesContainCoord el.pos).getLast?
          let wantAdd := (env.style == SelectorStyle.single
              || mods.contains ModifierKey.keyboardShift)
            && (match keyToAdd with
                | some k => ((env.selected k).map (fun sl => !sl)).getD false
                | none => false)
          match keyToAdd, wantAdd with
          | some k, true =>
              let sel2 := sel ++ [k]
              let bounds2 :=
                match env.boundsForStrokes sel2 with
                | some nb => nb
                | none => bounds
              some ⟨.modifySelection ms sel2 bounds2, ⟨true, .stop, .inProgress⟩,
                { store_modified := true },
                [.copyGhostStrokeWidth sel, .setSelected k true]⟩
          | _, _ =>
              if env.rotateNodeContains bounds el.pos then
                let angle := env.angleAhead (el.pos - bounds.center)
                some ⟨.modifySelection (.rotate bounds.center angle angle) sel
                    bounds,
                  ⟨true, .stop, .inProgress⟩, { store_modified := true }, []⟩
              else if env.resizeNodeContains .topLeft bounds el.pos then
                some ⟨.modifySelection (.resize .topLeft bounds el.pos) sel
                    bounds,
                  ⟨true, .stop, .inProgress⟩, { store_modified := true }, []⟩
              else if env.resizeNodeContains .topRight bounds el.pos then
                some ⟨.modifySelection (.resize .topRight bounds el.pos) sel
                    bounds,
                  ⟨true, .stop, .inProgress⟩, { store_modified := true }, []⟩
              else if env.resizeNodeContains .bottomLeft bounds el.pos then
                some ⟨.modifySelection (.resize .bottomLeft bounds el.pos) sel
                    bounds,
                  ⟨true, .stop, .inProgress⟩, { store_modified := true }, []⟩
              else if env.resizeNodeContains .bottomRight bounds el.pos then
                some ⟨.modifySelection (.resize .bottomRight bounds el.pos) sel
                    bounds,
                  ⟨true, .stop, .inProgress⟩, { store_modified := true }, []⟩
              else if bounds.containsPoint el.pos then
                some ⟨.modifySelection
                    (.translate el.pos el.pos (env.determineSnapCorner bounds el.pos))
                    sel bounds,
                  ⟨true, .stop, .inProgress⟩, { store_modified := true }, []⟩
              else
                some ⟨.idle, ⟨true, .stop, .finished⟩, { store_modified := true },
                  [.copyGhostStrokeWidth sel, .setSelectedKeys sel false]⟩
      | .translate startPos currentPos snapC =>
          let off := translateOffset env bounds snapC currentPos el.pos
          if magGt off (env.translateOffsetThreshold / env.totalZoom) then
            some ⟨.modifySelection
                (.translate startPos (currentPos + off) snapC) sel
                (bounds.translate off),
              ⟨true, .stop, .inProgress⟩,
              setStoreModified (env.nudgeFlags.union env.expandFlags),
              [.translateStrokes sel off, .translateStrokesImages sel off,
               .nudgeCamera el.pos, .expandAutoexpand,
               .regenerateRenderingInViewport]⟩
          else
            some ⟨.modifySelection (.translate startPos currentPos snapC) sel
                bounds,
              ⟨true, .stop, .inProgress⟩,
              setStoreModified (env.nudgeFlags.union env.expandFlags),
              [.nudgeCamera el.pos, .expandAutoexpand,
               .regenerateRenderingInViewport]⟩
      | .rotate center startAngle currentAngle =>
          let newAngle := env.angleAhead (el.pos - center)
          let delta := newAngle - currentAngle
          if qabs delta > env.rotateAngleThreshold then
            let bounds2 := (env.boundsForStrokes sel).getD bounds
            some ⟨.modifySelection (.rotate center startAngle newAngle) sel
                bounds2,
              ⟨true, .stop, .inProgress⟩, { store_modified := true },
              [.rotateStrokes sel delta center,
               .rotateStrokesImages sel delta center]⟩
          else
            some ⟨.modifySelection (.rotate center startAngle currentAngle) sel
                bounds,
              ⟨true, .stop, .inProgress⟩, { store_modified := true }, []⟩
      | .resize fromCorner startBounds startPos =>
          match env.initialSizeSelection with
          | none => none
          | some initSize =>
              let lockAspect := env.resizeLockAspect
                || mods.contains ModifierKey.keyboardCtrl
              let scp := resizeSnapCornerPos startBounds fromCorner
              let pivot := resizePivot startBounds fromCorner
              let off0 := el.pos - startPos
              let off1 := if !lockAspect then
                  env.snapPosition (scp + off0) - scp
                else off0
              let off2 := mirrorOffset off1 fromCorner
              let off3 := if lockAspect then
                  let startExtents := startBounds.extents
                  let startMean := (startExtents.x + startExtents.y) / 2
                  let offMean := (off2.x + off2.y) / 2
                  startExtents.smul (offMean / startMean)
                else off2
              let scaleResize : Vec2 :=
                ⟨scaleResizeAxisQ startBounds.extents.x off3.x bounds.extents.x,
                 scaleResizeAxisQ startBounds.extents.y off3.y bounds.extents.y⟩
              let scaleStroke : Vec2 :=
                ⟨scaleStrokeAxis startBounds.extents.x off3.x initSize.x,
                 scaleStrokeAxis startBounds.extents.y off3.y initSize.y⟩
              let bounds2 :=
                ((bounds.translate (-pivot)).scaleNonUniform scaleResize).translate
                  pivot
              some ⟨.modifySelection (.resize fromCorner startBounds startPos)
                  sel bounds2,
                ⟨true, .stop, .inProgress⟩,
                setStoreModified (env.nudgeFlags.union env.expandFlags),
                [.scaleStrokesWithPivot sel scaleStroke scaleResize pivot,
                 .scaleStrokesImagesWithPivot sel scaleResize pivot,
                 .nudgeCamera el.pos, .expandAutoexpand,
                 .regenerateRenderingInViewport]⟩

/-- Pointer-up handler (`handle_pen_event_up`, penevents.rs lines 434-575).
`ModifyState::default()` is `Up` (per the spec: transitions to
`ModifySelection` with `ModifyState` default `Up`). -/
def handleUp (env : Env) (s : SelectorState) (el : Element)
    (_mods : List ModifierKey) : Output :=
  match s with
  | .idle => ⟨.idle, ⟨false, .proceed, .idle⟩, {}, []⟩
  | .selecting path =>
      let newSelection := finalizeSelection env path
      if newSelection.isEmpty then
        ⟨.selecting path, ⟨true, .stop, .finished⟩, {}, []⟩
      else
        match env.boundsForStrokes newSelection with
        | some nb =>
            ⟨.modifySelection .up newSelection nb, ⟨true, .stop, .inProgress⟩,
              { store_modified := true, deselect_color_setters := true },
              [.setSelectedKeys newSelection true]⟩
        | none =>
            ⟨.selecting path, ⟨true, .stop, .finished⟩,
              { store_modified := true, deselect_color_setters := true },
              [.setSelectedKeys newSelection true]⟩
  | .modifySelection ms sel bounds =>
      if ms.isGesture then
        let bounds2 := (env.boundsForStrokes sel).getD bounds
        ⟨.modifySelection (hoverOrUp env el.pos) sel bounds2,
          ⟨true, .stop, .inProgress⟩,
          setStoreModified (env.resizeAutoexpandFlags.union env.recordFlags),
          [.updateGeometryForStrokes sel, .resizeAutoexpand,
           .regenerateRenderingInViewport, .record]⟩
      else
        ⟨.modifySelection (hoverOrUp env el.pos) sel bounds,
          ⟨true, .stop, .inProgress⟩, {}, []⟩

/-- Proximity handler (`handle_pen_event_proximity`, penevents.rs lines
577-616). -/
def handleProximity (env : Env) (s : SelectorState) (el : Element)
    (_mods : List ModifierKey) : Output :=
  match s with
  | .idle => ⟨.idle, ⟨false, .proceed, .idle⟩, {}, []⟩
  | .selecting path => ⟨.selecting path, ⟨true, .stop, .inProgress⟩, {}, []⟩
  | .modifySelection _ sel bounds =>
      ⟨.modifySelection (hoverOrUp env el.pos) sel bounds,
        ⟨true, .stop, .inProgress⟩, {}, []⟩

/-- Modelled from the spec: the `select_all` routine (in `selector/mod.rs`,
outside the excerpt) selects every stroke in the document; the spec specifies
no selector-state change for it, so it is modelled as issuing a select-all
command with oracle flags and keeping the state. -/
def selectAllOutput (env : Env) (s : SelectorState) : Output :=
  ⟨s, ⟨true, .stop, .inProgress⟩, env.selectAllFlags, [.selectAll]⟩

/-- Key-press handler (`handle_pen_event_keypressed`, penevents.rs lines
618-719). -/
def handleKeyPressed (env : Env) (s : SelectorState) (key : KeyboardKey)
    (mods : List ModifierKey) : Output :=
  match s with
  | .idle =>
      match key with
      | .unicode 'a' => selectAllOutput env .idle
      | _ => ⟨.idle, ⟨false, .proceed, .inProgress⟩, {}, []⟩
  | .selecting path =>
      match key with
      | .unicode 'a' => selectAllOutput env (.selecting path)
      | _ => ⟨.selecting path, ⟨false, .proceed, .inProgress⟩, {}, []⟩
  | .modifySelection ms sel bounds =>
      match key with
      | .unicode 'a' => selectAllOutput env (.modifySelection ms sel bounds)
      | .unicode 'd' =>
          if mods.contains ModifierKey.keyboardCtrl then
            let dup := env.duplicateSelectionResult
            ⟨.modifySelection ms sel bounds, ⟨true, .stop, .finished⟩,
              { env.recordFlags with resize := true, store_modified := true },
              [.duplicateSelection, .updateGeometryForStrokes dup,
               .regenerateRenderingForStrokes dup, .record]⟩
          else
            ⟨.modifySelection ms sel bounds, ⟨true, .stop, .finished⟩, {}, []⟩
      | .delete =>
          ⟨.idle, ⟨true, .stop, .finished⟩, env.cancelSelectionFlags,
            [.setTrashedKeys sel true, .cancelSelection sel]⟩
      | .backSpace =>
          ⟨.idle, ⟨true, .stop, .finished⟩, env.cancelSelectionFlags,
            [.setTrashedKeys sel true, .cancelSelection sel]⟩
      | .escape =>
          ⟨.idle, ⟨true, .stop, .finished⟩, env.cancelSelectionFlags,
            [.cancelSelection sel]⟩
      | _ =>
          ⟨.modifySelection ms sel bounds, ⟨false, .proceed, .inProgress⟩, {},
            []⟩

/-- Text-input handler (`handle_pen_event_text`, penevents.rs lines 721-748):
never handled in any state. -/
def handleText (s : SelectorState) : Output :=
  match s with
  | .idle => ⟨.idle, ⟨false, .proceed, .idle⟩, {}, []⟩
  | .selecting path => ⟨.selecting path, ⟨false, .proceed, .inProgress⟩, {}, []⟩
  | .modifySelection ms sel bounds =>
      ⟨.modifySelection ms sel bounds, ⟨false, .proceed, .inProgress⟩, {}, []⟩

/-- Cancel handler (`handle_pen_event_cancel`, penevents.rs lines 750-783).
The external `cancel_selection` routine (in `selector/mod.rs`, outside the
excerpt) is modelled from the spec as a single command that deselects the
selection without issuing a history record. -/
def handleCancel (env : Env) (s : SelectorState) : Output :=
  match s with
  | .idle => ⟨.idle, ⟨false, .proceed, .idle⟩, {}, []⟩
  | .selecting _ => ⟨.idle, ⟨true, .stop, .finished⟩, {}, []⟩
  | .modifySelection _ sel _ =>
      ⟨.idle, ⟨true, .stop, .finished⟩, env.cancelSelectionFlags,
        [.cancelSelection sel]⟩

/-- One pen event, tagged by kind. -/
inductive PenEvent where
  | down (el : Element) (mods : List ModifierKey)
  | up (el : Element) (mods : List ModifierKey)
  | proximity (el : Element) (mods : List ModifierKey)
  | keyPressed (key : KeyboardKey) (mods : List ModifierKey)
  | text (t : String)
  | cancel
deriving DecidableEq, Repr

/-- Modelled from the spec: the per-kind dispatch of the selector's
`handle_event` (in `selector/mod.rs`, outside the excerpt) — raw events are
"dispatched to the selector by event kind". Pointer-down is the only event
kind that can fail (the resize-branch unwrap); every other kind is total. -/
def handleEvent (env : Env) (s : SelectorState) : PenEvent → Option Output
  | .down el mods => handleDown env s el mods
  | .up el mods => some (handleUp env s el mods)
  | .proximity el mods => some (handleProximity env s el mods)
  | .keyPressed key mods => some (handleKeyPressed env s key mods)
  | .text _ => some (handleText s)
  | .cancel => some (handleCancel env s)

/-- Discriminates the five `ModifyState` constructors, to state that an
in-progress gesture never changes its kind mid-gesture. -/
def ModifyState.kind : ModifyState → ℕ
  | .up => 0
  | .hover _ => 1
  | .translate _ _ _ => 2
  | .rotate _ _ _ => 3
  | .resize _ _ _ => 4

/-- A concrete 10x10 bounds box used by the concrete instantiations below. -/
def boxTen : Aabb := ⟨⟨0, 0⟩, ⟨10, 10⟩⟩

/-- Concrete environment: every stroke query hits stroke 5 and bounds queries
answer `boxTen`. -/
def envSingleHit : Env :=
  { boundsForStrokes := fun _ => some boxTen,
    strokeHitboxesContainCoord := fun _ => [5] }

/-- Concrete environment: bounds queries answer `boxTen`, the angle oracle
returns 0. -/
def envAngleZero : Env :=
  { boundsForStrokes := fun _ => some boxTen }

/-- Concrete environment: the pointer-angle oracle returns -10. -/
def envAngleNegTen : Env :=
  { angleAhead := fun _ => -10 }

/-- Concrete environment: the hit-test returns the unselected stroke 7 and
bounds queries answer `none`. -/
def envHitUnselected : Env :=
  { strokeHitboxesContainCoord := fun _ => [7],
    selected := fun _ => some false }

/-! ## Helper lemmas -/

/-- Lemma: the second argument is a lower bound of `qmax`. -/
theorem le_qmax_right (a b : ℚ) : b ≤ qmax a b := by
  unfold qmax
  split
  · exact le_refl b
  · exact le_of_not_le (by assumption)

/-- Lemma: `clampNonFinite` always yields a finite value. -/
theorem clampNonFinite_fin (x : F64) : ∃ q : ℚ, F64.clampNonFinite x = .fin q := by
  cases x <;> exact ⟨_, rfl⟩

/-- Lemma: `hoverOrUp` always yields a resting sub-state. -/
theorem hoverOrUp_isRest (env : Env) (p : Vec2) : (hoverOrUp env p).isRest = true := by
  unfold hoverOrUp
  cases env.selectorBoundsOnDoc with
  | none => rfl
  | some b => by_cases hb : b.containsPoint p <;> simp [hb, ModifyState.isRest]

/-- Lemma: a gesture sub-state is not a resting sub-state. -/
theorem isGesture_not_isRest (ms : ModifyState) (h : ms.isGesture = true) :
    ms.isRest = false := by
  cases ms <;> simp_all [ModifyState.isGesture, ModifyState.isRest]

/-- Lemma: every sub-state is a gesture or resting sub-state. -/
theorem isGesture_or_isRest (ms : ModifyState) :
    ms.isGesture = true ∨ ms.isRest = true := by
  cases ms <;> simp [ModifyState.isGesture, ModifyState.isRest]

/-- Lemma: pointer-down from a gesture sub-state keeps a gesture sub-state of
the same kind. -/
theorem handleDown_gesture_stays (env : Env) (ms : ModifyState)
    (sel : List StrokeKey) (b : Aabb) (el : Element) (mods : List ModifierKey)
    (out : Output) (h : handleDown env (.modifySelection ms sel b) el mods = some out)
    (hg : ms.isGesture = true) :
    ∃ ms2 sel2 b2, out.state = .modifySelection ms2 sel2 b2 ∧
      ms2.isGesture = true ∧ ms2.kind = ms.kind := by
  cases ms with
  | up => simp [ModifyState.isGesture] at hg
  | hover p => simp [ModifyState.isGesture] at hg
  | translate a c d =>
      simp only [handleDown] at h
      split at h <;> (injection h with h; subst h; exact ⟨_, _, _, rfl, rfl, rfl⟩)
  | rotate a c d =>
      simp only [handleDown] at h
      split at h <;> (injection h with h; subst h; exact ⟨_, _, _, rfl, rfl, rfl⟩)
  | resize a c d =>
      simp only [handleDown] at h
      split at h
      · simp at h
      · injection h with h; subst h; exact ⟨_, _, _, rfl, rfl, rfl⟩

/-- Lemma: pointer-down from `Idle` or `Selecting` yields a `Selecting`
state. -/
theorem handleDown_from_nonmodify (env : Env) (s : SelectorState) (el : Element)
    (mods : List ModifierKey) (out : Output)
    (h : handleDown env s el mods = some out)
    (hs : s = .idle ∨ ∃ p, s = .selecting p) :
    ∃ p2, out.state = .selecting p2 := by
  rcases hs with rfl | ⟨p, rfl⟩
  · simp only [handleDown] at h
    split at h <;> (injection h with h; subst h; exact ⟨_, rfl⟩)
  · simp only [handleDown] at h
    injection h with h; subst h; exact ⟨_, rfl⟩

/-- Lemma: any `ModifySelection` state reached by pointer-up has a resting
sub-state. -/
theorem handleUp_state_rest (env : Env) (s : SelectorState) (el : Element)
    (mods : List ModifierKey) (ms2 : ModifyState) (sel2 : List StrokeKey)
    (b2 : Aabb)
    (h : (handleUp env s el mods).state = .modifySelection ms2 sel2 b2) :
    ms2.isRest = true := by
  cases s with
  | idle => simp [handleUp] at h
  | selecting path =>
      simp only [handleUp] at h
      split at h
      · simp at h
      · split at h
        · simp at h
          obtain ⟨hm, _, _⟩ := h
          subst hm; rfl
        · simp at h
  | modifySelection ms sel b =>
      simp only [handleUp] at h
      split at h <;>
        (simp at h; obtain ⟨hm, _, _⟩ := h; subst hm; exact hoverOrUp_isRest env el.pos)

/-- Lemma: any `ModifySelection` state reached by proximity has a resting
sub-state. -/
theorem handleProximity_state_rest (env : Env) (s : SelectorState) (el : Element)
    (mods : List ModifierKey) (ms2 : ModifyState) (sel2 : List StrokeKey)
    (b2 : Aabb)
    (h : (handleProximity env s el mods).state = .modifySelection ms2 sel2 b2) :
    ms2.isRest = true := by
  cases s with
  | idle => simp [handleProximity] at h
  | selecting path => simp [handleProximity] at h
  | modifySelection ms sel b =>
      simp only [handleProximity] at h
      simp at h
      obtain ⟨hm, _, _⟩ := h
      subst hm; exact hoverOrUp_isRest env el.pos

/-- Lemma: key-press either keeps the state or resets it to `Idle`. -/
theorem handleKeyPressed_state (env : Env) (s : SelectorState) (key : KeyboardKey)
    (mods : List ModifierKey) :
    (handleKeyPressed env s key mods).state = s ∨
    (handleKeyPressed env s key mods).state = .idle := by
  cases s <;> cases key <;>
    first
      | exact Or.inl rfl
      | exact Or.inr rfl
      | (left
         simp only [handleKeyPressed, selectAllOutput]
         repeat' split
         all_goals first | rfl | simp_all)

/-- Lemma: text input keeps the state. -/
theorem handleText_state (s : SelectorState) : (handleText s).state = s := by
  cases s <;> rfl

/-- Lemma: cancel always ends in `Idle`. -/
theorem handleCancel_state (env : Env) (s : SelectorState) :
    (handleCancel env s).state = .idle := by
  cases s <;> rfl

/-! ## Claim theorems -/

/-- C1 (amended): over every pen event, a `ModifySelection` state whose
sub-state becomes `Translate`/`Rotate`/`Resize` was previously in the same
gesture kind, or was in `Up`/`Hover` and received a pointer-down event; and a
state that leaves an in-progress `Translate`/`Rotate`/`Resize` sub-state for
`Up`/`Hover` does so only on a pointer-up or a pointer-proximity event (the
claim as frozen allows pointer-up only; the proximity handler also performs
this reset, see the counterexample). -/
theorem gesture_transition_discipline (env : Env) (s : SelectorState)
    (ev : PenEvent) (out : Output) (h : handleEvent env s ev = some out) :
    (∀ ms2 sel2 b2, out.state = .modifySelection ms2 sel2 b2 →
      ms2.isGesture = true →
      ∃ ms sel b, s = .modifySelection ms sel b ∧
        ((ms.isGesture = true ∧ ms2.kind = ms.kind) ∨
          (ms.isRest = true ∧ ∃ el mods, ev = .down el mods))) ∧
    (∀ ms sel b, s = .modifySelection ms sel b → ms.isGesture = true →
      ∀ ms2 sel2 b2, out.state = .modifySelection ms2 sel2 b2 →
        ms2.isRest = true →
        (∃ el mods, ev = .up el mods) ∨
        (∃ el mods, ev = .proximity el mods)) := by
  cases ev with
  | down el mods =>
      simp only [handleEvent] at h
      constructor
      · intro ms2 sel2 b2 hst hg
        cases s with
        | idle =>
            obtain ⟨p2, hp2⟩ :=
              handleDown_from_nonmodify env _ el mods out h (Or.inl rfl)
            rw [hp2] at hst; exact absurd hst (by simp)
        | selecting path =>
            obtain ⟨p2, hp2⟩ :=
              handleDown_from_nonmodify env _ el mods out h (Or.inr ⟨path, rfl⟩)
            rw [hp2] at hst; exact absurd hst (by simp)
        | modifySelection ms sel b =>
            refine ⟨ms, sel, b, rfl, ?_⟩
            rcases isGesture_or_isRest ms with hg2 | hr2
            · obtain ⟨ms3, sel3, b3, hst3, _, hk3⟩ :=
                handleDown_gesture_stays env ms sel b el mods out h hg2
              rw [hst3] at hst
              injection hst with h1 h2 h3
              rw [← h1]
              exact Or.inl ⟨hg2, hk3⟩
            · exact Or.inr ⟨hr2, el, mods, rfl⟩
      · intro ms sel b hs hg ms2 sel2 b2 hst hr
        subst hs
        obtain ⟨ms3, sel3, b3, hst3, hg3, hk3⟩ :=
          handleDown_gesture_stays env ms sel b el mods out h hg
        rw [hst3] at hst
        injection hst with h1 h2 h3
        rw [← h1] at hr
        rw [isGesture_not_isRest ms3 hg3] at hr
        exact absurd hr (by simp)
  | up el mods =>
      simp only [handleEvent] at h
      injection h with h
      subst h
      constructor
      · intro ms2 sel2 b2 hst hg
        have hr := handleUp_state_rest env s el mods ms2 sel2 b2 hst
        rw [isGesture_not_isRest ms2 hg] at hr
        exact absurd hr (by simp)
      · intro _ _ _ _ _ _ _ _ _ _
        exact Or.inl ⟨el, mods, rfl⟩
  | proximity el mods =>
      simp only [handleEvent] at h
      injection h with h
      subst h
      constructor
      · intro ms2 sel2 b2 hst hg
        have hr := handleProximity_state_rest env s el mods ms2 sel2 b2 hst
        rw [isGesture_not_isRest ms2 hg] at hr
        exact absurd hr (by simp)
      · intro _ _ _ _ _ _ _ _ _ _
        exact Or.inr ⟨el, mods, rfl⟩
  | keyPressed key mods =>
      simp only [handleEvent] at h
      injection h with h
      subst h
      constructor
      · intro ms2 sel2 b2 hst hg
        rcases handleKeyPressed_state env s key mods with hk | hk
        · rw [hk] at hst
          exact ⟨ms2, sel2, b2, hst, Or.inl ⟨hg, rfl⟩⟩
        · rw [hk] at hst; exact absurd hst (by simp)
      · intro ms sel b hs hg ms2 sel2 b2 hst hr
        rcases handleKeyPressed_state env s key mods with hk | hk
        · rw [hk, hs] at hst
          injection hst with h1 h2 h3
          rw [← h1] at hr
          rw [isGesture_not_isRest ms hg] at hr
          exact absurd hr (by simp)
        · rw [hk] at hst; exact absurd hst (by simp)
  | text t =>
      simp only [handleEvent] at h
      injection h with h
      subst h
      constructor
      · intro ms2 sel2 b2 hst hg
        rw [handleText_state s] at hst
        exact ⟨ms2, sel2, b2, hst, Or.inl ⟨hg, rfl⟩⟩
      · intro ms sel b hs hg ms2 sel2 b2 hst hr
        rw [handleText_state s, hs] at hst
        injection hst with h1 h2 h3
        rw [← h1] at hr
        rw [isGesture_not_isRest ms hg] at hr
        exact absurd hr (by simp)
  | cancel =>
      simp only [handleEvent] at h
      injection h with h
      subst h
      constructor
      · intro ms2 sel2 b2 hst hg
        rw [handleCancel_state env s] at hst
        exact absurd hst (by simp)
      · intro ms sel b hs hg ms2 sel2 b2 hst hr
        rw [handleCancel_state env s] at hst
        exact absurd hst (by simp)

/-- C1 counterexample: a proximity event received while the selector is in an
in-progress `Translate` sub-state resets the sub-state to `Up` — an event
other than pointer-up moves an in-progress gesture back to `Up`, refuting the
frozen claim. -/
theorem proximity_resets_gesture_cx :
    handleEvent {} (.modifySelection (.translate ⟨0, 0⟩ ⟨0, 0⟩ .topLeft) [0]
        boxTen) (.proximity ⟨⟨5, 5⟩⟩ []) =
      some ⟨.modifySelection .up [0] boxTen, ⟨true, .stop, .inProgress⟩, {},
        []⟩ := by
  decide

/-- C1 witness: the amended theorem applied at a concrete pointer-up event on
an in-progress `Translate` sub-state. -/
theorem gesture_transition_discipline_witness :
    (∃ el mods, PenEvent.up ⟨⟨5, 5⟩⟩ [] = PenEvent.up el mods) ∨
    (∃ el mods, PenEvent.up ⟨⟨5, 5⟩⟩ [] = PenEvent.proximity el mods) :=
  (gesture_transition_discipline {}
      (.modifySelection (.translate ⟨0, 0⟩ ⟨0, 0⟩ .topLeft) [0] boxTen)
      (.up ⟨⟨5, 5⟩⟩ [])
      (handleUp {} (.modifySelection (.translate ⟨0, 0⟩ ⟨0, 0⟩ .topLeft) [0]
        boxTen) ⟨⟨5, 5⟩⟩ []) rfl).2
    (.translate ⟨0, 0⟩ ⟨0, 0⟩ .topLeft) [0] boxTen rfl rfl .up [0] boxTen rfl
    rfl

/-- C2: on pointer-up in `Selecting`, assuming the store produces bounds for
every non-empty key list, the selection is finalized by the style's rule; if
the key list is empty the handler returns `Finished` and changes nothing, and
if it is non-empty the flags have `store_modified` and
`deselect_color_setters` set, bounds are computed, the state becomes
`ModifySelection` with sub-state `Up`, and progress is `InProgress`. -/
theorem selecting_up_finalizes (env : Env) (path : List Element) (el : Element)
    (mods : List ModifierKey)
    (hwf : ∀ ks : List StrokeKey, ks ≠ [] →
      (env.boundsForStrokes ks).isSome = true) :
    ((finalizeSelection env path).isEmpty = true →
      handleUp env (.selecting path) el mods =
        ⟨.selecting path, ⟨true, .stop, .finished⟩, {}, []⟩) ∧
    ((finalizeSelection env path).isEmpty = false →
      (handleUp env (.selecting path) el mods).flags.store_modified = true ∧
      (handleUp env (.selecting path) el mods).flags.deselect_color_setters = true ∧
      (handleUp env (.selecting path) el mods).result.progress = .inProgress ∧
      ∃ nb, env.boundsForStrokes (finalizeSelection env path) = some nb ∧
        (handleUp env (.selecting path) el mods).state =
          .modifySelection .up (finalizeSelection env path) nb ∧
        Cmd.setSelectedKeys (finalizeSelection env path) true ∈
          (handleUp env (.selecting path) el mods).cmds) := by
  constructor
  · intro hemp
    simp only [handleUp, hemp]
    rfl
  · intro hne
    have hne2 : finalizeSelection env path ≠ [] := by
      simpa [List.isEmpty_iff] using hne
    obtain ⟨nb, hnb⟩ := Option.isSome_iff_exists.mp (hwf _ hne2)
    simp only [handleUp, hne, hnb]
    simp

/-- C2 witness: the theorem applied to a concrete environment in which a
single-style pick hits stroke 5. -/
theorem selecting_up_finalizes_witness :
    (handleUp envSingleHit (.selecting [⟨⟨1, 1⟩⟩]) ⟨⟨2, 2⟩⟩
      []).result.progress = .inProgress :=
  ((selecting_up_finalizes envSingleHit [⟨⟨1, 1⟩⟩] ⟨⟨2, 2⟩⟩ []
      (fun _ _ => rfl)).2 rfl).2.2.1

/-- C3: for every start extent and offset (finite or not) and every strictly
positive current selection extent, the per-axis `scale_resize` value is a
finite number whose product with the current extent is at least 1e-2, so the
displayed resize never produces a degenerate, inverted, or zero-size
result. -/
theorem scale_resize_lower_bound (v o : F64) (e : ℚ) (he : 0 < e) :
    ∃ s : ℚ, scaleResizeAxis v o (.fin e) = .fin s ∧ 1/100 ≤ s * e := by
  obtain ⟨q, hq⟩ :=
    clampNonFinite_fin (F64.div (F64.fmax (F64.add v o) (.fin (1/1000000000000000))) (.fin e))
  have hne : e ≠ 0 := ne_of_gt he
  have hdiv : F64.div (.fin (1/100)) (.fin e) = .fin (1/100 / e) := by
    simp [F64.div, hne]
  refine ⟨qmax q (1/100 / e), ?_, ?_⟩
  · unfold scaleResizeAxis
    rw [hq, hdiv]
    rfl
  · have h1 : 1/100 / e ≤ qmax q (1/100 / e) := le_qmax_right _ _
    have h2 : (1/100 / e) * e ≤ qmax q (1/100 / e) * e :=
      mul_le_mul_of_nonneg_right h1 (le_of_lt he)
    rwa [div_mul_cancel₀ _ hne] at h2

/-- C3 witness: the bound applied at extent 1 with start extent 10 and
offset 5. -/
theorem scale_resize_lower_bound_witness :
    ∃ s : ℚ, scaleResizeAxis (.fin 10) (.fin 5) (.fin 1) = .fin s ∧
      1/100 ≤ s * 1 :=
  scale_resize_lower_bound (.fin 10) (.fin 5) 1 zero_lt_one

/-- C4: every state/event combination produces a defined result, except
exactly the pointer-down event in the `Resize` sub-state with the store's
`initial_size_selection` absent — the unwrap is the sole failure point, and
with `initial_size_selection` present all handlers are total. -/
theorem handlers_total_except_resize_unwrap (env : Env) (s : SelectorState)
    (ev : PenEvent) :
    handleEvent env s ev = none ↔
      ∃ el mods fc sb sp sel b, ev = .down el mods ∧
        s = .modifySelection (.resize fc sb sp) sel b ∧
        env.initialSizeSelection = none := by
  constructor
  · intro h
    cases ev with
    | down el mods =>
        cases s with
        | idle =>
            simp only [handleEvent, handleDown] at h
            split at h <;> simp at h
        | selecting path => simp [handleEvent, handleDown] at h
        | modifySelection ms sel b =>
            cases ms with
            | up =>
                simp only [handleEvent, handleDown] at h
                repeat' split at h
                all_goals simp at h
            | hover p =>
                simp only [handleEvent, handleDown] at h
                repeat' split at h
                all_goals simp at h
            | translate sp cp sc =>
                simp only [handleEvent, handleDown] at h
                split at h <;> simp at h
            | rotate c sa ca =>
                simp only [handleEvent, handleDown] at h
                split at h <;> simp at h
            | resize fc sb sp =>
                simp only [handleEvent, handleDown] at h
                split at h
                · rename_i heq
                  exact ⟨el, mods, fc, sb, sp, sel, b, rfl, rfl, heq⟩
                · simp at h
    | up el mods => simp [handleEvent] at h
    | proximity el mods => simp [handleEvent] at h
    | keyPressed k mods => simp [handleEvent] at h
    | text t => simp [handleEvent] at h
    | cancel => simp [handleEvent] at h
  · rintro ⟨el, mods, fc, sb, sp, sel, b, rfl, rfl, hnone⟩
    simp [handleEvent, handleDown, hnone]

/-- C5: during a `Translate` gesture, when the snapped candidate offset's
magnitude does not exceed the translation threshold divided by the camera
zoom, the translation is a no-op — the sub-state, `current_pos` and
`selection_bounds` are unchanged and no stroke-translation command is issued
— while the handler still issues the camera-nudge, document-expand and
re-render commands and returns `store_modified = true`. -/
theorem translate_below_threshold_noop (env : Env) (sel : List StrokeKey)
    (b : Aabb) (sp cp : Vec2) (sc : SnapCorner) (el : Element)
    (mods : List ModifierKey)
    (h : magGt (translateOffset env b sc cp el.pos)
        (env.translateOffsetThreshold / env.totalZoom) = false) :
    handleDown env (.modifySelection (.translate sp cp sc) sel b) el mods =
      some ⟨.modifySelection (.translate sp cp sc) sel b,
        ⟨true, .stop, .inProgress⟩,
        setStoreModified (env.nudgeFlags.union env.expandFlags),
        [.nudgeCamera el.pos, .expandAutoexpand,
         .regenerateRenderingInViewport]⟩ := by
  simp only [handleDown, h]
  simp

unseal Rat.add Rat.mul Rat.inv Rat.sub in
/-- C5 witness: the theorem applied with the pointer at the tracked position,
producing a zero snapped offset below the threshold. -/
theorem translate_below_threshold_noop_witness :
    handleDown {} (.modifySelection (.translate ⟨0, 0⟩ ⟨5, 5⟩ .topLeft) [0]
        boxTen) ⟨⟨5, 5⟩⟩ [] =
      some ⟨.modifySelection (.translate ⟨0, 0⟩ ⟨5, 5⟩ .topLeft) [0] boxTen,
        ⟨true, .stop, .inProgress⟩,
        setStoreModified (Env.nudgeFlags {} |>.union (Env.expandFlags {})),
        [.nudgeCamera ⟨5, 5⟩, .expandAutoexpand,
         .regenerateRenderingInViewport]⟩ :=
  translate_below_threshold_noop {} [0] boxTen ⟨0, 0⟩ ⟨5, 5⟩ .topLeft ⟨⟨5, 5⟩⟩
    [] (by decide)

/-- C6 (amended): during a `Rotate` gesture (with the store producing bounds
for the selection), the rotation is a no-op whenever the absolute value of
the angle delta (new pointer angle minus the tracked angle) does not exceed
the angle threshold; otherwise the incremental rotation by exactly that delta
about the recorded center is applied to strokes and images, the selection
bounds are updated to the store's recomputed bounds, and the tracked angle
becomes the new angle (the claim as frozen gates on the signed delta; the
source gates on its absolute value, see the counterexample). -/
theorem rotate_threshold_behavior (env : Env) (sel : List StrokeKey)
    (b : Aabb) (center : Vec2) (sa ca : ℚ) (el : Element)
    (mods : List ModifierKey) (nb : Aabb)
    (hb : env.boundsForStrokes sel = some nb) :
    handleDown env (.modifySelection (.rotate center sa ca) sel b) el mods =
      (if qabs (env.angleAhead (el.pos - center) - ca) >
          env.rotateAngleThreshold then
        some ⟨.modifySelection
            (.rotate center sa (env.angleAhead (el.pos - center))) sel nb,
          ⟨true, .stop, .inProgress⟩, { store_modified := true },
          [.rotateStrokes sel (env.angleAhead (el.pos - center) - ca) center,
           .rotateStrokesImages sel (env.angleAhead (el.pos - center) - ca)
             center]⟩
      else
        some ⟨.modifySelection (.rotate center sa ca) sel b,
          ⟨true, .stop, .inProgress⟩, { store_modified := true }, []⟩) := by
  simp only [handleDown, hb]
  rfl

unseal Rat.add Rat.mul Rat.inv Rat.sub in
/-- C6 witness: the amended theorem applied at a zero angle delta, yielding
the no-op branch. -/
theorem rotate_threshold_behavior_witness :
    handleDown envAngleZero (.modifySelection (.rotate ⟨0, 0⟩ 0 0) [0] boxTen)
        ⟨⟨1, 1⟩⟩ [] =
      some ⟨.modifySelection (.rotate ⟨0, 0⟩ 0 0) [0] boxTen,
        ⟨true, .stop, .inProgress⟩, { store_modified := true }, []⟩ := by
  have h := rotate_threshold_behavior envAngleZero [0] boxTen ⟨0, 0⟩ 0 0
    ⟨⟨1, 1⟩⟩ [] boxTen rfl
  rw [h]
  decide

unseal Rat.add Rat.mul Rat.inv Rat.sub in
/-- C6 counterexample: with a pointer-angle of -10 and tracked angle 0, the
signed angle delta -10 is below the threshold 1e-2 (so the frozen claim
demands a no-op), yet the handler applies the rotation. -/
theorem rotate_signed_delta_cx :
    (envAngleNegTen.angleAhead (Element.pos ⟨⟨1, 1⟩⟩ - ⟨0, 0⟩) - 0 ≤
      envAngleNegTen.rotateAngleThreshold) ∧
    handleDown envAngleNegTen (.modifySelection (.rotate ⟨0, 0⟩ 0 0) [3]
        boxTen) ⟨⟨1, 1⟩⟩ [] =
      some ⟨.modifySelection (.rotate ⟨0, 0⟩ 0 (-10)) [3] boxTen,
        ⟨true, .stop, .inProgress⟩, { store_modified := true },
        [.rotateStrokes [3] (-10) ⟨0, 0⟩,
         .rotateStrokesImages [3] (-10) ⟨0, 0⟩]⟩ := by
  constructor <;> decide

/-- C7: a key-press of the character d in `ModifySelection` always returns
handled with `Stop` propagation and `Finished` progress, regardless of the
Ctrl modifier; the duplication action (duplicate-selection, geometry update,
re-render, history record, resize and store-modified flags) is performed if
and only if Ctrl is among the modifier keys. -/
theorem duplicate_key_always_consumed (env : Env) (ms : ModifyState)
    (sel : List StrokeKey) (b : Aabb) (mods : List ModifierKey) :
    handleKeyPressed env (.modifySelection ms sel b) (.unicode 'd') mods =
      if mods.contains ModifierKey.keyboardCtrl then
        ⟨.modifySelection ms sel b, ⟨true, .stop, .finished⟩,
          { env.recordFlags with resize := true, store_modified := true },
          [.duplicateSelection,
           .updateGeometryForStrokes env.duplicateSelectionResult,
           .regenerateRenderingForStrokes env.duplicateSelectionResult,
           .record]⟩
      else
        ⟨.modifySelection ms sel b, ⟨true, .stop, .finished⟩, {}, []⟩ := by
  rfl

/-- C8: cancel is unhandled with `Proceed` in `Idle`; in `Selecting` it
discards the path and returns to `Idle` with `Finished`; in `ModifySelection`
it cancels the selection and returns to `Idle` with `Finished`; and in no
state does the cancel handler issue a history record. -/
theorem cancel_event_behavior (env : Env) (s : SelectorState) :
    (handleCancel env .idle = ⟨.idle, ⟨false, .proceed, .idle⟩, {}, []⟩) ∧
    (∀ path, handleCancel env (.selecting path) =
        ⟨.idle, ⟨true, .stop, .finished⟩, {}, []⟩) ∧
    (∀ ms sel b, handleCancel env (.modifySelection ms sel b) =
        ⟨.idle, ⟨true, .stop, .finished⟩, env.cancelSelectionFlags,
          [.cancelSelection sel]⟩) ∧
    Cmd.record ∉ (handleCancel env s).cmds := by
  refine ⟨rfl, fun _ => rfl, fun _ _ _ => rfl, ?_⟩
  cases s <;> simp [handleCancel]

/-- C9: in `Idle`, a key-press of any key other than the character a returns
handled = false with `Proceed` propagation but progress `InProgress`, whereas
the other unhandled events in `Idle` (pointer-up, proximity, text, cancel)
all return progress `Idle`. -/
theorem keypress_idle_progress_anomaly (env : Env) (key : KeyboardKey)
    (mods : List ModifierKey) (el : Element) (mods2 : List ModifierKey) :
    (handleKeyPressed env .idle key mods =
      if key = .unicode 'a' then selectAllOutput env .idle
      else ⟨.idle, ⟨false, .proceed, .inProgress⟩, {}, []⟩) ∧
    (handleUp env .idle el mods2).result.progress = .idle ∧
    (handleProximity env .idle el mods2).result.progress = .idle ∧
    (handleText .idle).result.progress = .idle ∧
    (handleCancel env .idle).result.progress = .idle := by
  refine ⟨?_, rfl, rfl, rfl, rfl⟩
  cases key with
  | unicode c =>
      by_cases hc : c = 'a'
      · subst hc; simp [handleKeyPressed]
      · have h2 : (KeyboardKey.unicode c) ≠ .unicode 'a' := by simpa using hc
        simp only [handleKeyPressed, if_neg h2]
  | backSpace => rfl
  | delete => rfl
  | escape => rfl
  | otherKey n => rfl

/-- C10: in the add-to-selection branch of pointer-down (resting sub-state,
single style or Shift held, topmost hit stroke unselected), when the store's
bounds query for the extended selection returns `none`, the stroke is still
marked selected and appended to the selection while `selection_bounds` keeps
its previous value, so the bounds-encloses-selection property is not
re-established. -/
theorem add_to_selection_bounds_none (env : Env) (ms : ModifyState)
    (sel : List StrokeKey) (b : Aabb) (el : Element) (mods : List ModifierKey)
    (k : StrokeKey)
    (hrest : ms.isRest = true)
    (hkey : (env.strokeHitboxesContainCoord el.pos).getLast? = some k)
    (hsty : (env.style == SelectorStyle.single
        || mods.contains ModifierKey.keyboardShift) = true)
    (hsel : env.selected k = some false)
    (hb : env.boundsForStrokes (sel ++ [k]) = none) :
    handleDown env (.modifySelection ms sel b) el mods =
      some ⟨.modifySelection ms (sel ++ [k]) b, ⟨true, .stop, .inProgress⟩,
        { store_modified := true },
        [.copyGhostStrokeWidth sel, .setSelected k true]⟩ := by
  cases ms with
  | up =>
      simp only [handleDown, hkey, hsty, hsel, hb]
      simp [hb]
  | hover p =>
      simp only [handleDown, hkey, hsty, hsel, hb]
      simp [hb]
  | translate a c d => simp [ModifyState.isRest] at hrest
  | rotate a c d => simp [ModifyState.isRest] at hrest
  | resize a c d => simp [ModifyState.isRest] at hrest

/-- C10 witness: the theorem applied to a concrete environment hitting the
unselected stroke 7 with a bounds query answering `none`. -/
theorem add_to_selection_bounds_none_witness :
    handleDown envHitUnselected (.modifySelection .up [] boxTen) ⟨⟨1, 1⟩⟩ [] =
      some ⟨.modifySelection .up [7] boxTen, ⟨true, .stop, .inProgress⟩,
        { store_modified := true },
        [.copyGhostStrokeWidth [], .setSelected 7 true]⟩ :=
  add_to_selection_bounds_none envHitUnselected .up [] boxTen ⟨⟨1, 1⟩⟩ [] 7
    rfl rfl rfl rfl rfl
